import Mathlib

/-!
Verification of the finger-ROI extraction pipeline
(`object_detection/fingers2.py`).

Modelling conventions:
* Python `float` values are embedded as exact rationals (`ℚ`); the pipeline
  only adds, multiplies, floor-divides and truncates them, so every operation
  on them is exact over `ℚ`.
* Python `int(x)` truncates toward zero (`pyInt` below); Python `x // y` on
  floats is the floating-point floor of the quotient (`pyFloorDivF`).
* numpy arrays are embedded as a shape together with a flat data list
  (`NDArr`); basic slicing follows numpy index normalisation (`npSliceNorm`).
* OpenCV routines whose source is outside the repository
  (`cv2.minAreaRect`, `cv2.findContours`, `cv2.warpAffine` pixel data,
  CLAHE, trigonometric evaluation, the mediapipe landmark model and the
  background remover) are treated as external collaborators: they enter the
  definitions as function parameters, while every formula the repository
  itself computes from their results is embedded exactly.
-/

/-- Python `int()` applied to a float: truncation toward zero. -/
def pyInt (q : ℚ) : ℤ := if q < 0 then ⌈q⌉ else ⌊q⌋

/-- Python `//` on floats: floor of the quotient, returned as a float. -/
def pyFloorDivF (a b : ℚ) : ℚ := ((⌊a / b⌋ : ℤ) : ℚ)

theorem pyInt_eq_floor {q : ℚ} (h : 0 ≤ q) : pyInt q = ⌊q⌋ := by
  simp [pyInt, not_lt.mpr h]

theorem pyInt_nonneg {q : ℚ} (h : 0 ≤ q) : 0 ≤ pyInt q := by
  rw [pyInt_eq_floor h]
  exact Int.floor_nonneg.mpr h

/-! ## numpy arrays and the Mask Builder (`get_segmentation_mask`) -/

/-- A numpy array: a shape and a flat (row-major) data list. -/
structure NDArr where
  shape : List ℕ
  data : List ℕ
  deriving Repr, DecidableEq

/-- Embedding of `cv2.cvtColor(·, COLOR_RGB2GRAY)` on 8-bit data, one pixel: OpenCV's
fixed-point formula `(4899*R + 9617*G + 1868*B + 8192) >> 14`
(the 14-bit fixed-point rendering of 0.299/0.587/0.114). -/
def rgb2grayVal (r g b : ℕ) : ℕ := (4899 * r + 9617 * g + 1868 * b + 8192) / 16384

/-- Grayscale conversion of an RGB pixel stream (3 interleaved channels). -/
def grayscaleList : List ℕ → List ℕ
  | r :: g :: b :: rest => rgb2grayVal r g b :: grayscaleList rest
  | _ => []

/-- The grayscale intensity of pixel `i` of an interleaved RGB data list
(`none` when the pixel is not fully present). -/
def pixelGrayAt (data : List ℕ) (i : ℕ) : Option ℕ :=
  (data.get? (3 * i)).bind fun r =>
    (data.get? (3 * i + 1)).bind fun g =>
      (data.get? (3 * i + 2)).map fun b => rgb2grayVal r g b

/-- Source `get_segmentation_mask`: reject non-3-channel input, grayscale-convert,
then threshold with `np.where(gray > threshold, 255, 0)` (cast to uint8,
which leaves 0 and 255 unchanged). -/
def get_segmentation_mask (image : NDArr) (threshold : ℕ) : Except String NDArr :=
  if image.shape.length ≠ 3 ∨ image.shape.getD 2 0 ≠ 3 then
    .error ("Expected an RGB image with 3 channels. Received image with shape "
      ++ toString image.shape ++ ".")
  else
    .ok ⟨[image.shape.getD 0 0, image.shape.getD 1 0],
         (grayscaleList image.data).map fun g => if threshold < g then 255 else 0⟩

theorem grayscaleList_get? :
    ∀ (data : List ℕ) (i : ℕ), (grayscaleList data).get? i = pixelGrayAt data i
  | [], i => by
    have h2 : (3 * i + 2 : ℕ) ≥ 0 := by omega
    simp [grayscaleList, pixelGrayAt]
  | [r], i => by
    have h2 : ([r] : List ℕ).length ≤ 3 * i + 1 := by
      simp only [List.length_cons, List.length_nil]
      omega
    simp [grayscaleList, pixelGrayAt, List.get?_eq_none.mpr h2]
  | [r, g], i => by
    have h2 : ([r, g] : List ℕ).length ≤ 3 * i + 2 := by
      simp only [List.length_cons, List.length_nil]
      omega
    simp [grayscaleList, pixelGrayAt, List.get?_eq_none.mpr h2]
  | r :: g :: b :: rest, 0 => by
    simp [grayscaleList, pixelGrayAt]
  | r :: g :: b :: rest, (j + 1) => by
    have h3 : 3 * (j + 1) = 3 * j + 1 + 1 + 1 := by ring
    have ih := grayscaleList_get? rest j
    simp only [grayscaleList, List.get?_cons_succ, ih, pixelGrayAt, h3]

example : get_segmentation_mask ⟨[1, 2, 3], [255, 255, 255, 0, 0, 0]⟩ 11 =
    .ok ⟨[1, 2], [255, 0]⟩ := by rfl

example : (get_segmentation_mask ⟨[4, 4], []⟩ 11).isOk = false := by rfl

/-! ## Contour Extractor (`extract_contour`) -/

/-- Embedding of `np.squeeze` on a contour of shape (N, 1, 2): the length-1 middle axis
is removed, concatenating the singleton rows. -/
def npSqueeze (c : List (List (ℤ × ℤ))) : List (ℤ × ℤ) := c.flatten

/-- The shoelace sum of a closed polygon (twice its signed area). -/
def shoelace (c : List (ℤ × ℤ)) : ℤ :=
  (c.zip (c.rotate 1)).foldl (fun acc pq => acc + (pq.1.1 * pq.2.2 - pq.2.1 * pq.1.2)) 0

/-- Embedding of `cv2.contourArea`: absolute value of the Green-formula (shoelace) area. -/
def contourArea (c : List (ℤ × ℤ)) : ℚ := (|shoelace c| : ℤ) / 2

/-- The sort key used on raw findContours output (each point is a singleton
row, as in the (N, 1, 2) arrays cv2 returns). -/
def areaOf (c : List (List (ℤ × ℤ))) : ℚ := contourArea (npSqueeze c)

/-- One insertion step of a stable descending sort: an element is placed
before the first element whose key is not larger, so that among equal keys
the earlier (already-inserted-later, see `pySortedDesc`) element stays first. -/
def insertDesc (f : α → ℚ) (x : α) : List α → List α
  | [] => [x]
  | y :: ys => if f y ≤ f x then x :: y :: ys else y :: insertDesc f x ys

/-- Python `sorted(l, key=f, reverse=True)`: a stable descending sort
(ties keep their original relative order). -/
def pySortedDesc (f : α → ℚ) : List α → List α
  | [] => []
  | x :: xs => insertDesc f x (pySortedDesc f xs)

/-- Source `extract_contour`: error when `cv2.findContours` (external) returned no
contours; otherwise the head of the contours sorted by `cv2.contourArea` in
descending order, squeezed. -/
def extract_contour (contours : List (List (List (ℤ × ℤ)))) :
    Except String (List (ℤ × ℤ)) :=
  if contours = [] then .error "No contours found in the image"
  else .ok (npSqueeze ((pySortedDesc areaOf contours).headD []))

/-! ## Nearest-Contour-Point Finder (`closest_contour_point`) -/

/-- Modelled from the spec: the five fingertip landmark indices
(`THUMB_TIP`, `INDEX_FINGER_TIP`, `MIDDLE_FINGER_TIP`, `RING_FINGER_TIP`,
`PINKY_TIP` from `landmarks_constants`, which is part of this repository
but absent from the sources; these are the standard mediapipe hand-landmark
tip indices). -/
def TIP_IDS : List ℕ := [4, 8, 12, 16, 20]

/-- Squared Euclidean distance between two integer points.  The source
compares `np.sqrt` of these values; square root is strictly monotone on
nonnegatives, so every comparison (and the first-occurrence argmin) is
unchanged by dropping it. -/
def distSq (a b : ℤ × ℤ) : ℤ := (a.1 - b.1) ^ 2 + (a.2 - b.2) ^ 2

/-- Embedding of `np.argmin`: index of the first occurrence of the minimum value. -/
def argminIdx : List ℤ → ℕ
  | [] => 0
  | x :: xs =>
    match xs.get? (argminIdx xs) with
    | none => 0
    | some v => if x ≤ v then 0 else argminIdx xs + 1

/-- The contour point of `s` closest to `lm` (first-occurrence argmin of
the Euclidean distances), as computed by the source's
`s[np.argmin(np.sqrt(np.sum((s - lm)**2, axis=1)))]`. -/
def selectClosest (lm : ℤ × ℤ) (s : List (ℤ × ℤ)) : ℤ × ℤ :=
  s.getD (argminIdx (s.map fun q => distSq q lm)) (0, 0)

/-- Source `closest_contour_point`: for each landmark (enumerated, so the tip rule
is decided by the landmark's index), filter the contour into the left and
right candidate subsets, fall back to the whole contour when a subset is
empty, and pick the closest point of each subset. -/
def closest_contour_point (landmarks contour : List (ℤ × ℤ)) :
    List ((ℤ × ℤ) × (ℤ × ℤ)) :=
  landmarks.enum.map fun cl =>
    let ctr := cl.1
    let landmark := cl.2
    let left_contour :=
      if ctr ∈ TIP_IDS then
        contour.filter fun q => q.1 ≤ landmark.1 ∧ landmark.2 ≤ q.2
      else
        contour.filter fun q => q.1 ≤ landmark.1
    let right_contour :=
      if ctr ∈ TIP_IDS then
        contour.filter fun q => landmark.1 < q.1 ∧ landmark.2 ≤ q.2
      else
        contour.filter fun q => landmark.1 < q.1
    let left_contour := if left_contour = [] then contour else left_contour
    let right_contour := if right_contour = [] then contour else right_contour
    (selectClosest landmark left_contour, selectClosest landmark right_contour)

/-- Holds when `p` is the first point of `s` minimising the Euclidean distance to
`lm`: it occurs at some index `k` whose distance is a global minimum, and
every strictly earlier point is strictly farther away. -/
def FirstArgmin (lm : ℤ × ℤ) (s : List (ℤ × ℤ)) (p : ℤ × ℤ) : Prop :=
  ∃ k, s.get? k = some p ∧
    (∀ j q, s.get? j = some q → distSq p lm ≤ distSq q lm) ∧
    (∀ j q, j < k → s.get? j = some q → distSq p lm < distSq q lm)

/-! ## Rotated ROI Extractor (`get_bounding_box`, `extract_roi`) -/

/-- A rotated rectangle as returned by `cv2.minAreaRect`:
(float center, float (width, height), float angle in degrees). -/
structure Rect where
  center : ℚ × ℚ
  size : ℚ × ℚ
  angle : ℚ
  deriving Repr, DecidableEq

/-- Source `get_bounding_box` after the external `cv2.minAreaRect` call: normalise
the raw rectangle to portrait orientation (swap the sides and subtract 90
degrees from the angle when width exceeds height). -/
def get_bounding_box (rect : Rect) : Rect :=
  if rect.size.2 < rect.size.1 then
    ⟨rect.center, (rect.size.2, rect.size.1), rect.angle - 90⟩
  else rect

/-- A 2x3 affine matrix (row-major `[[a, b, c], [d, e, f]]`). -/
structure Mat2x3 where
  a : ℚ
  b : ℚ
  c : ℚ
  d : ℚ
  e : ℚ
  f : ℚ
  deriving Repr, DecidableEq

/-- Embedding of `cv2.getRotationMatrix2D(center, theta, scale)`. The trigonometric
evaluation is external; the matrix is built from the cosine and sine values
by OpenCV's documented formula. -/
def getRotationMatrix2D (center : ℚ × ℚ) (cosT sinT scale : ℚ) : Mat2x3 :=
  let α := scale * cosT
  let β := scale * sinT
  ⟨α, β, (1 - α) * center.1 - β * center.2,
   -β, α, β * center.1 + (1 - α) * center.2⟩

/-- The exact (un-truncated) x coordinate of the affine image of `p`. -/
def exactWarpX (m : Mat2x3) (p : ℤ × ℤ) : ℚ := m.a * p.1 + m.b * p.2 + m.c

/-- The exact (un-truncated) y coordinate of the affine image of `p`. -/
def exactWarpY (m : Mat2x3) (p : ℤ × ℤ) : ℚ := m.d * p.1 + m.e * p.2 + m.f

/-- Source `transform_point`: apply the 2x3 matrix to the point in homogeneous
form and truncate each coordinate with `int()`. -/
def transform_point (point : ℤ × ℤ) (matrix : Mat2x3) : ℤ × ℤ :=
  (pyInt (exactWarpX matrix point), pyInt (exactWarpY matrix point))

/-- Source `adjust_for_roi_crop`: subtract the offset
`int(roi_center - roi_size // 2)` componentwise. -/
def adjust_for_roi_crop (point : ℤ × ℤ) (roi_center roi_size : ℚ × ℚ) : ℤ × ℤ :=
  let x_offset := pyInt (roi_center.1 - pyFloorDivF roi_size.1 2)
  let y_offset := pyInt (roi_center.2 - pyFloorDivF roi_size.2 2)
  (point.1 - x_offset, point.2 - y_offset)

/-- numpy normalisation of a slice endpoint on an axis of length `n`:
negative endpoints count from the end of the axis, then the result is
clamped to `[0, n]`. -/
def npSliceNorm (i : ℤ) (n : ℕ) : ℕ :=
  (min (max (if i < 0 then i + n else i) 0) n).toNat

/-- Length of the numpy basic slice `a[start:stop]` on an axis of length `n`. -/
def npSliceLen (start stop : ℤ) (n : ℕ) : ℕ :=
  npSliceNorm stop n - npSliceNorm start n

/-- The width of the rectangle after the 15% margin
(`width += width * 0.15`). -/
def roiExpandedW (rect : Rect) : ℚ := rect.size.1 + rect.size.1 * (15 / 100)

/-- The height of the rectangle after the 15% margin. -/
def roiExpandedH (rect : Rect) : ℚ := rect.size.2 + rect.size.2 * (15 / 100)

/-- The crop offset `x = int(center[0] - width // 2)` of `extract_roi`
(computed on the expanded width). -/
def roiCropX (rect : Rect) : ℤ := pyInt (rect.center.1 - pyFloorDivF (roiExpandedW rect) 2)

/-- The crop offset `y = int(center[1] - height // 2)` of `extract_roi`. -/
def roiCropY (rect : Rect) : ℤ := pyInt (rect.center.2 - pyFloorDivF (roiExpandedH rect) 2)

/-- The shape of a cropped ROI (pixel contents of the warped image are
produced by the external `cv2.warpAffine` and are never inspected by the
properties below). -/
structure ROIShape where
  rows : ℕ
  cols : ℕ
  deriving Repr, DecidableEq

/-- Source `extract_roi` on an image of height `H` and width `W`: expand the
rectangle by 15%, build the rotation matrix about its center, warp the
whole image onto a canvas of the same size (external; only the canvas
size `W x H` matters here) and slice out
`warped[y : y + int(height), x : x + int(width)]`.  Returns the ROI shape
and the rotation matrix. -/
def extract_roi (H W : ℕ) (rect : Rect) (cosT sinT : ℚ) : ROIShape × Mat2x3 :=
  let rotation_matrix := getRotationMatrix2D rect.center cosT sinT 1
  let x := roiCropX rect
  let y := roiCropY rect
  (⟨npSliceLen y (y + pyInt (roiExpandedH rect)) H,
    npSliceLen x (x + pyInt (roiExpandedW rect)) W⟩, rotation_matrix)

/-- The point `p`, before the warp, lies inside the rotated rectangle:
its exact affine image lies in the axis-aligned `size`-box about the
center.  Modelled from the spec: this is the contract of the external
`cv2.minAreaRect` for every point that was used to build the rectangle. -/
def buildPointInRect (rect : Rect) (m : Mat2x3) (p : ℤ × ℤ) : Prop :=
  |exactWarpX m p - rect.center.1| ≤ rect.size.1 / 2 ∧
  |exactWarpY m p - rect.center.2| ≤ rect.size.2 / 2

/-- The point lies within the pixel bounds of the ROI. -/
def withinROI (p : ℤ × ℤ) (roi : ROIShape) : Prop :=
  0 ≤ p.1 ∧ p.1 < (roi.cols : ℤ) ∧ 0 ≤ p.2 ∧ p.2 < (roi.rows : ℤ)

instance (p : ℤ × ℤ) (roi : ROIShape) : Decidable (withinROI p roi) := by
  unfold withinROI
  infer_instance

instance (rect : Rect) (m : Mat2x3) (p : ℤ × ℤ) :
    Decidable (buildPointInRect rect m p) := by
  unfold buildPointInRect
  infer_instance

/-! ## Per-Finger Pipeline Orchestrator (`process_image`) -/

/-- Embedding of `cv2.cvtColor(·, COLOR_BGR2GRAY)` on an interleaved BGR stream
(same OpenCV coefficients, channels reversed). -/
def grayscaleListBGR : List ℕ → List ℕ
  | b :: g :: r :: rest => rgb2grayVal r g b :: grayscaleListBGR rest
  | _ => []

/-- Embedding of `cv2.cvtColor(image, COLOR_BGR2GRAY)` on an `[h, w, 3]` array. -/
def cvtBGR2GRAY (a : NDArr) : NDArr :=
  ⟨[a.shape.getD 0 0, a.shape.getD 1 0], grayscaleListBGR a.data⟩

/-- Embedding of `cv2.cvtColor(mask, COLOR_GRAY2RGB)`: replicate the single channel. -/
def cvtGRAY2RGB (a : NDArr) : NDArr :=
  ⟨[a.shape.getD 0 0, a.shape.getD 1 0, 3], (a.data.map fun v => [v, v, v]).flatten⟩

/-- Embedding of `cv2.copyMakeBorder(image, p, p, p, p, BORDER_CONSTANT, value=[0,0,0])`
on an `[h, w, 3]` array: black border of `pad` pixels on all four sides. -/
def copyMakeBorder (a : NDArr) (pad : ℕ) : NDArr :=
  let h := a.shape.getD 0 0
  let w := a.shape.getD 1 0
  let row := fun (i : ℕ) =>
    List.replicate (pad * 3) 0 ++ ((a.data.drop (i * w * 3)).take (w * 3))
      ++ List.replicate (pad * 3) 0
  let blackRow := List.replicate ((w + 2 * pad) * 3) 0
  ⟨[h + 2 * pad, w + 2 * pad, 3],
   (List.replicate pad blackRow ++ (List.range h).map row
     ++ List.replicate pad blackRow).flatten⟩

/-- Source `increase_contrast`: BGR-to-gray, CLAHE (external, a parameter), and
channel replication when the input had 3 channels. -/
def increase_contrast (claheApply : NDArr → NDArr) (img : NDArr) : NDArr :=
  let gray := cvtBGR2GRAY img
  let enhanced := claheApply gray
  if img.shape.getLast? = some 3 then cvtGRAY2RGB enhanced else enhanced

/-- The external collaborators consumed by `process_image`:
`pixel_finder.landmark_to_pixels` (repository code outside the sources),
the CLAHE equaliser, `segmentation.bg.remove`, `cv2.findContours`,
`cv2.minAreaRect`, and degree-argument cosine/sine used by
`cv2.getRotationMatrix2D`. -/
structure ExtDeps where
  landmarkToPixels : NDArr → List (ℚ × ℚ) → ℕ → ℤ × ℤ
  claheApply : NDArr → NDArr
  bgRemove : NDArr → NDArr
  findContours : NDArr → List (List (List (ℤ × ℤ)))
  minAreaRect : List (ℤ × ℤ) → Rect
  cosDeg : ℚ → ℚ
  sinDeg : ℚ → ℚ

/-- Source `landmarks_to_pixel_coordinates`: project each landmark of the first
hand onto the grayscale image's pixel grid. -/
def landmarks_to_pixel_coordinates (ext : ExtDeps) (image : NDArr)
    (hands : List (List (ℚ × ℚ))) : List (ℤ × ℤ) :=
  let hand0 := hands.headD []
  (List.range hand0.length).map (ext.landmarkToPixels (cvtBGR2GRAY image) hand0)

/-- Modelled from the spec: `landmarks_constants.landmarks_per_finger`
(repository code absent from the sources) maps each finger to its ordered
landmark indices, tip first followed by the two joints (DIP, PIP), using
the standard mediapipe hand topology. -/
def landmarks_per_finger (key : String) : List ℕ :=
  if key = "INDEX" then [8, 7, 6]
  else if key = "MIDDLE" then [12, 11, 10]
  else if key = "RING" then [16, 15, 14]
  else if key = "PINKY" then [20, 19, 18]
  else []

/-- A finger ROI file written by the orchestrator: its path, the ROI
shape, and the two joint markers drawn on it. -/
structure FingerWrite where
  path : String
  roi : ROIShape
  pipMark : ℤ × ℤ
  dipMark : ℤ × ℤ
  deriving Repr, DecidableEq

/-- The observable outcome of `process_image`: the finger ROI files and
mask file written, and the warnings printed. -/
structure PIResult where
  fingerWrites : List FingerWrite
  warnings : List String
  maskWrite : Option (String × NDArr)
  deriving Repr, DecidableEq

/-- One iteration of the finger loop of `process_image`: gather the
finger's ROI points (both contour neighbours of its two joints plus its
tip pixel), bound, warp and crop them against the mask, remap the two
joints, and either write the ROI (with the two markers drawn at the
remapped joints) or warn when it is empty. -/
def processFinger (ext : ExtDeps) (rgb_mask : NDArr)
    (landmark_pixels : List (ℤ × ℤ))
    (closest_points : List ((ℤ × ℤ) × (ℤ × ℤ)))
    (FINGER_OUTPUT_DIR basename key : String) :
    Option FingerWrite × List String :=
  let idxs := landmarks_per_finger key
  let finger_roi_points := (idxs.drop 1).foldr
    (fun idx acc =>
      let pr := closest_points.getD idx ((0, 0), (0, 0))
      pr.1 :: pr.2 :: acc) []
  let finger_roi_points := finger_roi_points
    ++ [landmark_pixels.getD (idxs.getD 0 0) (0, 0)]
  let rect := get_bounding_box (ext.minAreaRect finger_roi_points)
  let rm := extract_roi (rgb_mask.shape.getD 0 0) (rgb_mask.shape.getD 1 0)
    rect (ext.cosDeg rect.angle) (ext.sinDeg rect.angle)
  let roi := rm.1
  let rotation_matrix := rm.2
  let dip := landmark_pixels.getD (idxs.getD 1 0) (0, 0)
  let pip := landmark_pixels.getD (idxs.getD 2 0) (0, 0)
  let rotated_pip := transform_point pip rotation_matrix
  let rotated_dip := transform_point dip rotation_matrix
  let new_pip := adjust_for_roi_crop rotated_pip rect.center rect.size
  let new_dip := adjust_for_roi_crop rotated_dip rect.center rect.size
  let path := FINGER_OUTPUT_DIR ++ "/" ++ key ++ basename
  if 0 < roi.rows * roi.cols then
    (some ⟨path, roi, new_pip, new_dip⟩, [])
  else
    (none, ["Warning: The ROI image is empty or None. Skipping save operation for finger "
      ++ key ++ basename ++ "."])

/-- Source `process_image` given the results of the external landmark detector
(`image`, `hands`): skip with a warning when no hand was found; otherwise
project the landmarks, contrast-enhance, background-remove, build the
mask, extract the contour, compute the nearest contour points, pad the
original image by 200 black pixels (the padded image is bound but the
finger loop reads `rgb_mask`), run the four-finger loop, and finally
write the RGB mask. -/
def processImage (ext : ExtDeps) (image : NDArr) (hands : List (List (ℚ × ℚ)))
    (MASKS_OUTPUT_DIR FINGER_OUTPUT_DIR basename : String) :
    Except String PIResult :=
  if hands = [] then
    .ok ⟨[], ["Warning: No landmarks detected for " ++ basename
      ++ ". Skipping save operation."], none⟩
  else
    let landmark_pixels := landmarks_to_pixel_coordinates ext image hands
    let enhanced_image := increase_contrast ext.claheApply image
    let result := ext.bgRemove enhanced_image
    match get_segmentation_mask result 11 with
    | .error e => .error e
    | .ok seg_mask =>
      match extract_contour (ext.findContours seg_mask) with
      | .error e => .error e
      | .ok contour =>
        let rgb_mask := cvtGRAY2RGB seg_mask
        let closest_points := closest_contour_point landmark_pixels contour
        let padded_image := copyMakeBorder image 200
        let results := ["INDEX", "MIDDLE", "RING", "PINKY"].map
          (processFinger ext rgb_mask landmark_pixels closest_points
            FINGER_OUTPUT_DIR basename)
        .ok ⟨results.filterMap Prod.fst,
             (results.map Prod.snd).flatten,
             some (MASKS_OUTPUT_DIR ++ "/seg_" ++ basename, rgb_mask)⟩

/-- The comparison variant demanded by the padding claim: the same
pipeline with the 200-pixel padding step omitted.  Every other line is
identical to `processImage`. -/
def processImageNoPadding (ext : ExtDeps) (image : NDArr)
    (hands : List (List (ℚ × ℚ)))
    (MASKS_OUTPUT_DIR FINGER_OUTPUT_DIR basename : String) :
    Except String PIResult :=
  if hands = [] then
    .ok ⟨[], ["Warning: No landmarks detected for " ++ basename
      ++ ". Skipping save operation."], none⟩
  else
    let landmark_pixels := landmarks_to_pixel_coordinates ext image hands
    let enhanced_image := increase_contrast ext.claheApply image
    let result := ext.bgRemove enhanced_image
    match get_segmentation_mask result 11 with
    | .error e => .error e
    | .ok seg_mask =>
      match extract_contour (ext.findContours seg_mask) with
      | .error e => .error e
      | .ok contour =>
        let rgb_mask := cvtGRAY2RGB seg_mask
        let closest_points := closest_contour_point landmark_pixels contour
        let results := ["INDEX", "MIDDLE", "RING", "PINKY"].map
          (processFinger ext rgb_mask landmark_pixels closest_points
            FINGER_OUTPUT_DIR basename)
        .ok ⟨results.filterMap Prod.fst,
             (results.map Prod.snd).flatten,
             some (MASKS_OUTPUT_DIR ++ "/seg_" ++ basename, rgb_mask)⟩

/-! ## Helper lemmas -/

theorem argminIdx_spec : ∀ (l : List ℤ), l ≠ [] →
    ∃ v, l.get? (argminIdx l) = some v ∧
      (∀ j u, l.get? j = some u → v ≤ u) ∧
      (∀ j u, j < argminIdx l → l.get? j = some u → v < u) := by
  intro l
  induction l with
  | nil => intro h; exact absurd rfl h
  | cons x xs ih =>
    intro _
    by_cases hxs : xs = []
    · subst hxs
      refine ⟨x, ?_, ?_, ?_⟩
      · rfl
      · intro j u hj
        cases j with
        | zero => simp at hj; omega
        | succ j => simp at hj
      · intro j u hj
        simp [argminIdx] at hj
    · obtain ⟨v, hv, hmin, hstrict⟩ := ih hxs
      have hred : argminIdx (x :: xs) = if x ≤ v then 0 else argminIdx xs + 1 := by
        simp only [argminIdx, hv]
      by_cases hxv : x ≤ v
      · refine ⟨x, ?_, ?_, ?_⟩
        · rw [hred, if_pos hxv]
          rfl
        · intro j u hj
          cases j with
          | zero => simp at hj; omega
          | succ j => exact le_trans (le_trans hxv (hmin j u hj)) le_rfl
        · intro j u hj
          rw [hred, if_pos hxv] at hj
          omega
      · have hvx : v < x := lt_of_not_le hxv
        refine ⟨v, ?_, ?_, ?_⟩
        · rw [hred, if_neg hxv]
          simpa using hv
        · intro j u hj
          cases j with
          | zero =>
            simp at hj
            omega
          | succ j => exact hmin j u hj
        · intro j u hj hju
          rw [hred, if_neg hxv] at hj
          cases j with
          | zero =>
            simp at hju
            omega
          | succ j =>
            exact hstrict j u (by omega) hju

theorem selectClosest_spec (lm : ℤ × ℤ) (s : List (ℤ × ℤ)) (hs : s ≠ []) :
    FirstArgmin lm s (selectClosest lm s) := by
  have hds : s.map (fun q => distSq q lm) ≠ [] := by
    simpa using hs
  obtain ⟨v, hv, hmin, hstrict⟩ := argminIdx_spec _ hds
  rw [List.get?_map] at hv
  obtain ⟨p, hp, hpv⟩ := Option.map_eq_some'.mp hv
  have hsel : selectClosest lm s = p := by
    show (s.get? (argminIdx (s.map fun q => distSq q lm))).getD (0, 0) = p
    rw [hp]
    rfl
  rw [hsel]
  refine ⟨argminIdx (s.map fun q => distSq q lm), hp, ?_, ?_⟩
  · intro j q hj
    have : (s.map fun q => distSq q lm).get? j = some (distSq q lm) := by
      rw [List.get?_map, hj]
      rfl
    have := hmin j _ this
    omega
  · intro j q hjk hj
    have : (s.map fun q => distSq q lm).get? j = some (distSq q lm) := by
      rw [List.get?_map, hj]
      rfl
    have := hstrict j _ hjk this
    omega

theorem insertDesc_ne_nil (f : α → ℚ) (x : α) (t : List α) : insertDesc f x t ≠ [] := by
  cases t with
  | nil => simp [insertDesc]
  | cons y ys =>
    by_cases h : f y ≤ f x <;> simp [insertDesc, h]

theorem pySortedDesc_ne_nil (f : α → ℚ) (l : List α) (h : l ≠ []) :
    pySortedDesc f l ≠ [] := by
  cases l with
  | nil => exact absurd rfl h
  | cons x xs => exact insertDesc_ne_nil f x (pySortedDesc f xs)

theorem pySortedDesc_headD_firstMax (f : α → ℚ) (d : α) :
    ∀ (l : List α), l ≠ [] →
    ∃ k m, l.get? k = some m ∧ (pySortedDesc f l).headD d = m ∧
      (∀ j u, l.get? j = some u → f u ≤ f m) ∧
      (∀ j u, j < k → l.get? j = some u → f u < f m) := by
  intro l
  induction l with
  | nil => intro h; exact absurd rfl h
  | cons x xs ih =>
    intro _
    by_cases hxs : xs = []
    · subst hxs
      refine ⟨0, x, rfl, rfl, ?_, ?_⟩
      · intro j u hj
        cases j with
        | zero => simp at hj; rw [hj]
        | succ j => simp at hj
      · intro j u hj
        omega
    · obtain ⟨k, m, hget, hhead, hmax, hstrict⟩ := ih hxs
      cases hsx : pySortedDesc f xs with
      | nil => exact absurd hsx (pySortedDesc_ne_nil f xs hxs)
      | cons y ys =>
        have hym : y = m := by
          rw [hsx] at hhead
          simpa using hhead
        subst hym
        have hrun : pySortedDesc f (x :: xs) = insertDesc f x (y :: ys) := by
          simp [pySortedDesc, hsx]
        by_cases hcmp : f y ≤ f x
        · refine ⟨0, x, rfl, ?_, ?_, ?_⟩
          · rw [hrun]
            simp [insertDesc, hcmp]
          · intro j u hj
            cases j with
            | zero =>
              simp at hj
              rw [hj]
            | succ j => exact le_trans (hmax j u hj) hcmp
          · intro j u hj
            omega
        · have hlt : f x < f y := lt_of_not_le hcmp
          refine ⟨k + 1, y, by simpa using hget, ?_, ?_, ?_⟩
          · rw [hrun]
            simp [insertDesc, hcmp]
          · intro j u hj
            cases j with
            | zero =>
              simp at hj
              rw [← hj]
              exact le_of_lt hlt
            | succ j => exact hmax j u hj
          · intro j u hjk hj
            cases j with
            | zero =>
              simp at hj
              rw [← hj]
              exact hlt
            | succ j => exact hstrict j u (by omega) hj

theorem npSliceLen_of_inside (s l : ℤ) (n : ℕ) (h0 : 0 ≤ s) (hl : 0 ≤ l)
    (hn : s + l ≤ (n : ℤ)) : npSliceLen s (s + l) n = l.toNat := by
  unfold npSliceLen npSliceNorm
  rw [if_neg (by omega), if_neg (by omega)]
  omega

theorem pyInt_of_neg {q : ℚ} (h : q < 0) : pyInt q = -⌊-q⌋ := by
  rw [pyInt, if_pos h, show q = -(-q) by ring, Int.ceil_neg]
  ring_nf

/-- Per-axis bound for the crop/adjust round trip: when the warped
coordinate `q` lies within `s / 2` of the center `c`, the center is at
least `s / 2` from the origin, and `s ≥ 14`, the adjusted coordinate
`int(q) - int(c - s // 2)` lies in `[-1, int(s + s * 0.15))`. -/
theorem adj_bound_axis (q c s : ℚ) (hs : 14 ≤ s) (hc : s / 2 ≤ c)
    (h1 : c - s / 2 ≤ q) (h2 : q ≤ c + s / 2) :
    -1 ≤ pyInt q - pyInt (c - pyFloorDivF s 2) ∧
    pyInt q - pyInt (c - pyFloorDivF s 2) < pyInt (s + s * (15 / 100)) := by
  have hF1 : ((⌊s / 2⌋ : ℤ) : ℚ) ≤ s / 2 := Int.floor_le _
  have hF2 : s / 2 < ((⌊s / 2⌋ : ℤ) : ℚ) + 1 := Int.lt_floor_add_one _
  have hq0 : 0 ≤ q := by linarith
  have ha0 : 0 ≤ c - pyFloorDivF s 2 := by
    unfold pyFloorDivF
    linarith
  have hw0 : (0 : ℚ) ≤ s + s * (15 / 100) := by linarith
  rw [pyInt_eq_floor hq0, pyInt_eq_floor ha0, pyInt_eq_floor hw0]
  have hfl : ⌊c - pyFloorDivF s 2⌋ = ⌊c⌋ - ⌊s / 2⌋ := by
    unfold pyFloorDivF
    exact Int.floor_sub_int c ⌊s / 2⌋
  rw [hfl]
  have hcf : ((⌊c⌋ : ℤ) : ℚ) ≤ c := Int.floor_le c
  have hcf2 : c < ((⌊c⌋ : ℤ) : ℚ) + 1 := Int.lt_floor_add_one c
  constructor
  · have h3 : (⌊c⌋ - ⌊s / 2⌋ - 1 : ℤ) ≤ ⌊q⌋ := by
      apply Int.le_floor.mpr
      push_cast
      linarith
    omega
  · have h4 : ⌊q⌋ ≤ ⌊c⌋ + ⌊s / 2⌋ + 1 := by
      have h4a : ⌊q⌋ < ⌊c⌋ + ⌊s / 2⌋ + 2 := by
        apply Int.floor_lt.mpr
        push_cast
        linarith
      omega
    have h5 : 2 * ⌊s / 2⌋ + 2 ≤ ⌊s + s * (15 / 100)⌋ := by
      apply Int.le_floor.mpr
      push_cast
      linarith
    omega

/-! ## Claim theorems -/

/-- The formula the specification states for `adjust_for_roi_crop`
(C2's reading): subtract `int(c - s / 2)` — true division by two inside
the truncation, not the floor division the source performs. -/
def adjust_for_roi_crop_claimed (point : ℤ × ℤ) (roi_center roi_size : ℚ × ℚ) :
    ℤ × ℤ :=
  (point.1 - pyInt (roi_center.1 - roi_size.1 / 2),
   point.2 - pyInt (roi_center.2 - roi_size.2 / 2))

/-- C2 (counterexample): at `p = (0,0)`, `c = (10,10)`, `s = (5,5)` the
source computes `int(10 - 5 // 2) = 8`, so it returns `(-8, -8)`, while
the claimed formula `p - int(c - s/2)` gives `-int(7.5) = -7`, i.e.
`(-7, -7)`; the two disagree, refuting the claim as stated. -/
theorem C2_counterexample :
    adjust_for_roi_crop (0, 0) (10, 10) (5, 5) = (-8, -8) ∧
    adjust_for_roi_crop_claimed (0, 0) (10, 10) (5, 5) = (-7, -7) ∧
    adjust_for_roi_crop (0, 0) (10, 10) (5, 5) ≠
      adjust_for_roi_crop_claimed (0, 0) (10, 10) (5, 5) := by
  refine ⟨?_, ?_, ?_⟩ <;>
    norm_num [adjust_for_roi_crop, adjust_for_roi_crop_claimed, pyInt, pyFloorDivF,
      Prod.ext_iff]

/-- C2 (amended): `adjust_for_roi_crop(p, c, s)` subtracts the offset
`int(c - s // 2)` — the size is floor-divided by two first and the
difference is then truncated; when both offsets are nonnegative this
equals `(p.x - (⌊c.x⌋ - ⌊s.x/2⌋), p.y - (⌊c.y⌋ - ⌊s.y/2⌋))`. -/
theorem C2_amended (p : ℤ × ℤ) (c s : ℚ × ℚ)
    (hx : 0 ≤ c.1 - pyFloorDivF s.1 2) (hy : 0 ≤ c.2 - pyFloorDivF s.2 2) :
    adjust_for_roi_crop p c s =
      (p.1 - (⌊c.1⌋ - ⌊s.1 / 2⌋), p.2 - (⌊c.2⌋ - ⌊s.2 / 2⌋)) := by
  unfold adjust_for_roi_crop
  rw [pyInt_eq_floor hx, pyInt_eq_floor hy]
  unfold pyFloorDivF
  rw [Int.floor_sub_int, Int.floor_sub_int]

/-- C2 (witness): the amended statement applied at `p = (0,0)`,
`c = (10,10)`, `s = (5,5)` yields `(-8, -8)`. -/
theorem C2_witness :
    adjust_for_roi_crop (0, 0) (10, 10) (5, 5) =
      ((0 : ℤ) - (⌊(10 : ℚ)⌋ - ⌊(5 : ℚ) / 2⌋), (0 : ℤ) - (⌊(10 : ℚ)⌋ - ⌊(5 : ℚ) / 2⌋)) :=
  C2_amended (0, 0) (10, 10) (5, 5)
    (by norm_num [pyFloorDivF]) (by norm_num [pyFloorDivF])

/-- C4: on any `[h, w, 3]` input, `get_segmentation_mask` succeeds with a
mask of shape `[h, w]` whose every value is 0 or 255, and whose pixel `i`
is 255 exactly when the grayscale intensity of input pixel `i` strictly
exceeds the threshold (and 0 otherwise). -/
theorem C4_mask_builder (h w t : ℕ) (data : List ℕ) :
    ∃ m, get_segmentation_mask ⟨[h, w, 3], data⟩ t = .ok m ∧
      m.shape = [h, w] ∧
      (∀ v ∈ m.data, v = 0 ∨ v = 255) ∧
      (∀ i, m.data.get? i =
        (pixelGrayAt data i).map fun g => if t < g then 255 else 0) := by
  have hok : get_segmentation_mask ⟨[h, w, 3], data⟩ t =
      .ok ⟨[h, w], (grayscaleList data).map fun g => if t < g then 255 else 0⟩ := by
    unfold get_segmentation_mask
    rw [if_neg (by simp)]
    rfl
  refine ⟨_, hok, rfl, ?_, ?_⟩
  · intro v hv
    simp only [List.mem_map] at hv
    obtain ⟨g, _, hg⟩ := hv
    by_cases hgt : t < g
    · right
      rw [← hg, if_pos hgt]
    · left
      rw [← hg, if_neg hgt]
  · intro i
    show ((grayscaleList data).map fun g => if t < g then 255 else 0).get? i = _
    rw [List.get?_map, grayscaleList_get?]

/-- C6: the rectangle returned by `get_bounding_box` always satisfies
width ≤ height; it swaps the sides and subtracts 90 degrees exactly when
the raw minimum-area rectangle had width > height, and returns the raw
rectangle unchanged otherwise. -/
theorem C6_portrait (rect : Rect) :
    (get_bounding_box rect).size.1 ≤ (get_bounding_box rect).size.2 ∧
    get_bounding_box rect =
      (if rect.size.2 < rect.size.1 then
        ⟨rect.center, (rect.size.2, rect.size.1), rect.angle - 90⟩
      else rect) := by
  unfold get_bounding_box
  split_ifs with hswap
  · exact ⟨le_of_lt hswap, rfl⟩
  · exact ⟨le_of_not_lt hswap, rfl⟩

/-- C7: when the landmark detector finds zero hands, `process_image`
returns normally, writes no finger ROI file and no mask file, and logs
exactly the skip warning. -/
theorem C7_no_hands_skips (ext : ExtDeps) (image : NDArr)
    (MASKS_OUTPUT_DIR FINGER_OUTPUT_DIR basename : String) :
    processImage ext image [] MASKS_OUTPUT_DIR FINGER_OUTPUT_DIR basename =
      .ok ⟨[], ["Warning: No landmarks detected for " ++ basename
        ++ ". Skipping save operation."], none⟩ := rfl

/-- C9: the 200-pixel black padding of the original image before the
finger loop has no effect on the result: the pipeline with the padding
step and the pipeline without it produce identical finger ROI writes,
warnings, and mask writes, for every image, landmark set and choice of
the external collaborators. -/
theorem C9_padding_no_effect (ext : ExtDeps) (image : NDArr)
    (hands : List (List (ℚ × ℚ)))
    (MASKS_OUTPUT_DIR FINGER_OUTPUT_DIR basename : String) :
    processImage ext image hands MASKS_OUTPUT_DIR FINGER_OUTPUT_DIR basename =
      processImageNoPadding ext image hands MASKS_OUTPUT_DIR FINGER_OUTPUT_DIR
        basename := rfl

/-- C8: `get_segmentation_mask` fails (with its `ValueError`-class shape
error) exactly when the input is not a three-dimensional array whose last
dimension is 3; on every `[h, w, 3]`-shaped input it succeeds. -/
theorem C8_shape_error (a : NDArr) (t : ℕ) :
    (∃ e, get_segmentation_mask a t = .error e) ↔
      ¬(a.shape.length = 3 ∧ a.shape.getD 2 0 = 3) := by
  unfold get_segmentation_mask
  by_cases hcond : a.shape.length ≠ 3 ∨ a.shape.getD 2 0 ≠ 3
  · rw [if_pos hcond]
    constructor
    · intro _
      tauto
    · intro _
      exact ⟨_, rfl⟩
  · rw [if_neg hcond]
    push_neg at hcond
    constructor
    · rintro ⟨e, he⟩
      exact absurd he (by simp)
    · intro hne
      exact absurd ⟨hcond.1, hcond.2⟩ hne

/-- C10: there is an image size and a non-degenerate rotated rectangle —
here a 20 by 60 axis-aligned rectangle lying entirely inside a 100 by 100
image — for which the crop offset `int(center.x - (1.15*width) // 2)`
computed by `extract_roi` is negative, and the negative slice start is
interpreted from the end of the axis, making the returned ROI empty even
though the rectangle has positive area and overlaps the image. -/
theorem C10_negative_offset_empty_roi :
    ∃ (H W : ℕ) (rect : Rect),
      0 < rect.size.1 ∧ 0 < rect.size.2 ∧
      0 ≤ rect.center.1 - rect.size.1 / 2 ∧
      rect.center.1 + rect.size.1 / 2 ≤ (W : ℚ) ∧
      0 ≤ rect.center.2 - rect.size.2 / 2 ∧
      rect.center.2 + rect.size.2 / 2 ≤ (H : ℚ) ∧
      roiCropX rect < 0 ∧
      (extract_roi H W rect 1 0).1.cols = 0 ∧
      (extract_roi H W rect 1 0).1.rows = 0 := by
  refine ⟨100, 100, ⟨(10, 30), (20, 60), 0⟩, ?_, ?_, ?_, ?_, ?_, ?_, ?_, ?_, ?_⟩
  · norm_num
  · norm_num
  · norm_num
  · norm_num
  · norm_num
  · norm_num
  · have hx : roiCropX ⟨(10, 30), (20, 60), 0⟩ = -1 := by
      norm_num [roiCropX, roiExpandedW, pyInt, pyFloorDivF, Int.ceil_eq_iff]
    rw [hx]
    norm_num
  · have hx : roiCropX ⟨(10, 30), (20, 60), 0⟩ = -1 := by
      norm_num [roiCropX, roiExpandedW, pyInt, pyFloorDivF, Int.ceil_eq_iff]
    have hw : pyInt (roiExpandedW ⟨(10, 30), (20, 60), 0⟩) = 23 := by
      norm_num [roiExpandedW, pyInt, pyFloorDivF]
    show npSliceLen (roiCropX ⟨(10, 30), (20, 60), 0⟩) _ 100 = 0
    rw [hx, hw]
    rfl
  · have hy : roiCropY ⟨(10, 30), (20, 60), 0⟩ = -4 := by
      norm_num [roiCropY, roiExpandedH, pyInt, pyFloorDivF, Int.ceil_eq_iff]
    have hh : pyInt (roiExpandedH ⟨(10, 30), (20, 60), 0⟩) = 69 := by
      norm_num [roiExpandedH, pyInt, pyFloorDivF]
    show npSliceLen (roiCropY ⟨(10, 30), (20, 60), 0⟩) _ 100 = 0
    rw [hy, hh]
    rfl

/-- C3: for every non-empty contour, `closest_contour_point` returns one
pair per landmark, indexed identically; for the five fingertip landmark
indices the left subset keeps contour points with `x ≤ lm.x` and
`y ≥ lm.y` and the right subset those with `x > lm.x` and `y ≥ lm.y`;
other landmarks drop the y restriction; an empty subset is replaced by
the whole contour; and each returned point is the first point of its
subset minimising the Euclidean distance to the landmark. -/
theorem C3_closest_points (landmarks contour : List (ℤ × ℤ)) (hc : contour ≠ []) :
    (closest_contour_point landmarks contour).length = landmarks.length ∧
    ∀ i lm, landmarks.get? i = some lm →
      ∃ pr, (closest_contour_point landmarks contour).get? i = some pr ∧
        FirstArgmin lm
          (if (if i ∈ TIP_IDS then
                contour.filter fun q => q.1 ≤ lm.1 ∧ lm.2 ≤ q.2
              else contour.filter fun q => q.1 ≤ lm.1) = [] then contour
           else (if i ∈ TIP_IDS then
                contour.filter fun q => q.1 ≤ lm.1 ∧ lm.2 ≤ q.2
              else contour.filter fun q => q.1 ≤ lm.1)) pr.1 ∧
        FirstArgmin lm
          (if (if i ∈ TIP_IDS then
                contour.filter fun q => lm.1 < q.1 ∧ lm.2 ≤ q.2
              else contour.filter fun q => lm.1 < q.1) = [] then contour
           else (if i ∈ TIP_IDS then
                contour.filter fun q => lm.1 < q.1 ∧ lm.2 ≤ q.2
              else contour.filter fun q => lm.1 < q.1)) pr.2 := by
  refine ⟨by simp [closest_contour_point], ?_⟩
  intro i lm hlm
  have henum : landmarks.enum.get? i = some (i, lm) := by
    rw [List.get?_enum, hlm]
    rfl
  have hfall : ∀ sub : List (ℤ × ℤ), (if sub = [] then contour else sub) ≠ [] := by
    intro sub
    by_cases h1 : sub = []
    · rw [if_pos h1]
      exact hc
    · rw [if_neg h1]
      exact h1
  refine ⟨(selectClosest lm
      (if (if i ∈ TIP_IDS then
            contour.filter fun q => q.1 ≤ lm.1 ∧ lm.2 ≤ q.2
          else contour.filter fun q => q.1 ≤ lm.1) = [] then contour
       else (if i ∈ TIP_IDS then
            contour.filter fun q => q.1 ≤ lm.1 ∧ lm.2 ≤ q.2
          else contour.filter fun q => q.1 ≤ lm.1)),
     selectClosest lm
      (if (if i ∈ TIP_IDS then
            contour.filter fun q => lm.1 < q.1 ∧ lm.2 ≤ q.2
          else contour.filter fun q => lm.1 < q.1) = [] then contour
       else (if i ∈ TIP_IDS then
            contour.filter fun q => lm.1 < q.1 ∧ lm.2 ≤ q.2
          else contour.filter fun q => lm.1 < q.1))), ?_,
     selectClosest_spec lm _ (hfall _), selectClosest_spec lm _ (hfall _)⟩
  unfold closest_contour_point
  rw [List.get?_map, henum]
  rfl

/-- C3 (witness): the theorem applied to the single landmark `(0,0)` and
the contour `[(1,0), (0,1)]`; landmark index 0 is not a fingertip, the
left subset is `[(0,1)]` and the right subset is `[(1,0)]`. -/
theorem C3_witness :
    ∃ pr, (closest_contour_point [((0 : ℤ), (0 : ℤ))] [(1, 0), (0, 1)]).get? 0 =
        some pr ∧
      FirstArgmin (0, 0) [((0 : ℤ), (1 : ℤ))] pr.1 ∧
      FirstArgmin (0, 0) [((1 : ℤ), (0 : ℤ))] pr.2 :=
  (C3_closest_points [(0, 0)] [(1, 0), (0, 1)] (by decide)).2 0 (0, 0) rfl

/-- C5: `extract_contour` raises the "no contours" error exactly when the
external contour list is empty; otherwise it returns the squeezed points
of a contour of maximal `cv2.contourArea` (the first such contour, since
Python's sort is stable). -/
theorem C5_extract_contour (cs : List (List (List (ℤ × ℤ)))) :
    (extract_contour cs = .error "No contours found in the image" ↔ cs = []) ∧
    (cs ≠ [] → ∃ k c, cs.get? k = some c ∧
      extract_contour cs = .ok (npSqueeze c) ∧
      (∀ j d, cs.get? j = some d → areaOf d ≤ areaOf c) ∧
      (∀ j d, j < k → cs.get? j = some d → areaOf d < areaOf c)) := by
  by_cases h : cs = []
  · subst h
    refine ⟨by simp [extract_contour], ?_⟩
    intro hne
    exact absurd rfl hne
  · refine ⟨?_, ?_⟩
    · unfold extract_contour
      rw [if_neg h]
      simp [h]
    · intro _
      obtain ⟨k, m, hget, hhead, hmax, hstrict⟩ :=
        pySortedDesc_headD_firstMax areaOf [] cs h
      refine ⟨k, m, hget, ?_, hmax, hstrict⟩
      unfold extract_contour
      rw [if_neg h, hhead]

/-- C5 (witness): the theorem applied to a singleton contour list (one
triangle); its only contour is returned squeezed. -/
theorem C5_witness :
    ∃ k c, ([[[((0 : ℤ), (0 : ℤ))], [(2, 0)], [(0, 2)]]] :
        List (List (List (ℤ × ℤ)))).get? k = some c ∧
      extract_contour [[[(0, 0)], [(2, 0)], [(0, 2)]]] = .ok (npSqueeze c) ∧
      (∀ j d, ([[[((0 : ℤ), (0 : ℤ))], [(2, 0)], [(0, 2)]]] :
          List (List (List (ℤ × ℤ)))).get? j = some d → areaOf d ≤ areaOf c) ∧
      (∀ j d, j < k → ([[[((0 : ℤ), (0 : ℤ))], [(2, 0)], [(0, 2)]]] :
          List (List (List (ℤ × ℤ)))).get? j = some d → areaOf d < areaOf c) :=
  (C5_extract_contour [[[(0, 0)], [(2, 0)], [(0, 2)]]]).2 (by simp)

/-- C1 (counterexample): take the build points
`(8,10), (12,10), (8,30), (12,30)`, whose minimum-area rectangle is the
axis-aligned `((10,20),(20,4),90)` (portrait-normalised by
`get_bounding_box` to `((10,20),(4,20),0)`, rotation cosine 1 and sine 0),
inside a 100 by 100 mask.  The build point `p = (12,10)` lies in the
rectangle, yet transforming it with the matrix returned by `extract_roi`
and adjusting with the same rectangle's center and size gives `(4, 0)`
while the ROI is only 4 pixels wide (`extract_roi` crops with the
15%-expanded width but `adjust_for_roi_crop` is fed the un-expanded
size), so the point is NOT within the ROI's pixel bounds. -/
theorem C1_counterexample :
    get_bounding_box ⟨(10, 20), (20, 4), 90⟩ = ⟨(10, 20), (4, 20), 0⟩ ∧
    buildPointInRect ⟨(10, 20), (4, 20), 0⟩
      (extract_roi 100 100 ⟨(10, 20), (4, 20), 0⟩ 1 0).2 (12, 10) ∧
    ¬ withinROI
      (adjust_for_roi_crop
        (transform_point (12, 10) (extract_roi 100 100 ⟨(10, 20), (4, 20), 0⟩ 1 0).2)
        (10, 20) (4, 20))
      (extract_roi 100 100 ⟨(10, 20), (4, 20), 0⟩ 1 0).1 := by
  have hm : (extract_roi 100 100 ⟨(10, 20), (4, 20), 0⟩ 1 0).2 =
      ⟨1, 0, 0, 0, 1, 0⟩ := by
    show getRotationMatrix2D (10, 20) 1 0 1 = _
    norm_num [getRotationMatrix2D, Mat2x3.mk.injEq]
  have hshape : (extract_roi 100 100 ⟨(10, 20), (4, 20), 0⟩ 1 0).1 = ⟨23, 4⟩ := by
    have hx : roiCropX ⟨(10, 20), (4, 20), 0⟩ = 8 := by
      norm_num [roiCropX, roiExpandedW, pyInt, pyFloorDivF]
    have hwv : pyInt (roiExpandedW ⟨(10, 20), (4, 20), 0⟩) = 4 := by
      norm_num [roiExpandedW, pyInt, pyFloorDivF]
    have hy : roiCropY ⟨(10, 20), (4, 20), 0⟩ = 9 := by
      norm_num [roiCropY, roiExpandedH, pyInt, pyFloorDivF]
    have hhv : pyInt (roiExpandedH ⟨(10, 20), (4, 20), 0⟩) = 23 := by
      norm_num [roiExpandedH, pyInt, pyFloorDivF]
    show (⟨npSliceLen (roiCropY ⟨(10, 20), (4, 20), 0⟩)
        (roiCropY ⟨(10, 20), (4, 20), 0⟩ + pyInt (roiExpandedH ⟨(10, 20), (4, 20), 0⟩)) 100,
      npSliceLen (roiCropX ⟨(10, 20), (4, 20), 0⟩)
        (roiCropX ⟨(10, 20), (4, 20), 0⟩ + pyInt (roiExpandedW ⟨(10, 20), (4, 20), 0⟩)) 100⟩ :
      ROIShape) = ⟨23, 4⟩
    rw [hx, hwv, hy, hhv]
    rfl
  have ht : transform_point (12, 10) (⟨1, 0, 0, 0, 1, 0⟩ : Mat2x3) = (12, 10) := by
    norm_num [transform_point, exactWarpX, exactWarpY, pyInt, Prod.ext_iff]
  have hadj : adjust_for_roi_crop (12, 10) (10, 20) (4, 20) = (4, 0) := by
    norm_num [adjust_for_roi_crop, pyInt, pyFloorDivF, Prod.ext_iff]
  refine ⟨?_, ?_, ?_⟩
  · norm_num [get_bounding_box, Rect.mk.injEq, Prod.ext_iff]
  · rw [hm]
    constructor <;> norm_num [exactWarpX, exactWarpY]
  · rw [hm, ht, hadj, hshape]
    decide

/-- C1 (amended): when the crop window of `extract_roi` lies inside the
warped canvas, the rectangle sits in the nonnegative quadrant (center at
least half the size from each axis), and both rectangle dimensions are at
least 14, a point of the rotated rectangle — transformed by the exact
matrix returned by `extract_roi` and adjusted with that rectangle's
center and size — lands within the ROI's pixel bounds extended by one
pixel at the left and top edges only:
`-1 ≤ x < roi_width` and `-1 ≤ y < roi_height`. -/
theorem C1_amended (H W : ℕ) (rect : Rect) (cosT sinT : ℚ) (p : ℤ × ℤ)
    (hin : buildPointInRect rect (extract_roi H W rect cosT sinT).2 p)
    (hw : 14 ≤ rect.size.1) (hh : 14 ≤ rect.size.2)
    (hcx : rect.size.1 / 2 ≤ rect.center.1) (hcy : rect.size.2 / 2 ≤ rect.center.2)
    (hx0 : 0 ≤ roiCropX rect) (hy0 : 0 ≤ roiCropY rect)
    (hxW : roiCropX rect + pyInt (roiExpandedW rect) ≤ (W : ℤ))
    (hyH : roiCropY rect + pyInt (roiExpandedH rect) ≤ (H : ℤ)) :
    -1 ≤ (adjust_for_roi_crop (transform_point p (extract_roi H W rect cosT sinT).2)
        rect.center rect.size).1 ∧
    (adjust_for_roi_crop (transform_point p (extract_roi H W rect cosT sinT).2)
        rect.center rect.size).1 < ((extract_roi H W rect cosT sinT).1.cols : ℤ) ∧
    -1 ≤ (adjust_for_roi_crop (transform_point p (extract_roi H W rect cosT sinT).2)
        rect.center rect.size).2 ∧
    (adjust_for_roi_crop (transform_point p (extract_roi H W rect cosT sinT).2)
        rect.center rect.size).2 < ((extract_roi H W rect cosT sinT).1.rows : ℤ) := by
  obtain ⟨hbx, hby⟩ := hin
  rw [abs_le] at hbx hby
  have hax := adj_bound_axis (exactWarpX (extract_roi H W rect cosT sinT).2 p)
    rect.center.1 rect.size.1 hw hcx (by linarith [hbx.1]) (by linarith [hbx.2])
  have hay := adj_bound_axis (exactWarpY (extract_roi H W rect cosT sinT).2 p)
    rect.center.2 rect.size.2 hh hcy (by linarith [hby.1]) (by linarith [hby.2])
  have hwpos : 0 ≤ pyInt (roiExpandedW rect) := by
    apply pyInt_nonneg
    unfold roiExpandedW
    linarith
  have hhpos : 0 ≤ pyInt (roiExpandedH rect) := by
    apply pyInt_nonneg
    unfold roiExpandedH
    linarith
  have hcols : (extract_roi H W rect cosT sinT).1.cols =
      (pyInt (roiExpandedW rect)).toNat := by
    show npSliceLen (roiCropX rect)
      (roiCropX rect + pyInt (roiExpandedW rect)) W = _
    exact npSliceLen_of_inside _ _ _ hx0 hwpos hxW
  have hrows : (extract_roi H W rect cosT sinT).1.rows =
      (pyInt (roiExpandedH rect)).toNat := by
    show npSliceLen (roiCropY rect)
      (roiCropY rect + pyInt (roiExpandedH rect)) H = _
    exact npSliceLen_of_inside _ _ _ hy0 hhpos hyH
  have hcX : (adjust_for_roi_crop (transform_point p (extract_roi H W rect cosT sinT).2)
      rect.center rect.size).1 =
      pyInt (exactWarpX (extract_roi H W rect cosT sinT).2 p) -
        pyInt (rect.center.1 - pyFloorDivF rect.size.1 2) := rfl
  have hcY : (adjust_for_roi_crop (transform_point p (extract_roi H W rect cosT sinT).2)
      rect.center rect.size).2 =
      pyInt (exactWarpY (extract_roi H W rect cosT sinT).2 p) -
        pyInt (rect.center.2 - pyFloorDivF rect.size.2 2) := rfl
  rw [hcX, hcY, hcols, hrows]
  unfold roiExpandedW at hwpos
  unfold roiExpandedH at hhpos
  unfold roiExpandedW roiExpandedH
  refine ⟨hax.1, ?_, hay.1, ?_⟩
  · have h2 := hax.2
    omega
  · have h2 := hay.2
    omega

/-- C1 (witness): the amended statement applied to the rectangle
`((20,40),(16,40),0)` in a 200 by 200 image with the build point
`(12,20)` (a point on the rectangle's edge); all hypotheses hold and the
adjusted point is inside the bounds. -/
theorem C1_witness :
    -1 ≤ (adjust_for_roi_crop (transform_point (12, 20)
        (extract_roi 200 200 ⟨(20, 40), (16, 40), 0⟩ 1 0).2) (20, 40) (16, 40)).1 ∧
    (adjust_for_roi_crop (transform_point (12, 20)
        (extract_roi 200 200 ⟨(20, 40), (16, 40), 0⟩ 1 0).2) (20, 40) (16, 40)).1 <
      ((extract_roi 200 200 ⟨(20, 40), (16, 40), 0⟩ 1 0).1.cols : ℤ) ∧
    -1 ≤ (adjust_for_roi_crop (transform_point (12, 20)
        (extract_roi 200 200 ⟨(20, 40), (16, 40), 0⟩ 1 0).2) (20, 40) (16, 40)).2 ∧
    (adjust_for_roi_crop (transform_point (12, 20)
        (extract_roi 200 200 ⟨(20, 40), (16, 40), 0⟩ 1 0).2) (20, 40) (16, 40)).2 <
      ((extract_roi 200 200 ⟨(20, 40), (16, 40), 0⟩ 1 0).1.rows : ℤ) :=
  C1_amended 200 200 ⟨(20, 40), (16, 40), 0⟩ 1 0 (12, 20)
    (by
      constructor <;>
        norm_num [exactWarpX, exactWarpY, extract_roi, getRotationMatrix2D,
          buildPointInRect])
    (by norm_num) (by norm_num) (by norm_num) (by norm_num)
    (by norm_num [roiCropX, roiExpandedW, pyInt, pyFloorDivF])
    (by norm_num [roiCropY, roiExpandedH, pyInt, pyFloorDivF])
    (by norm_num [roiCropX, roiExpandedW, pyInt, pyFloorDivF])
    (by norm_num [roiCropY, roiExpandedH, pyInt, pyFloorDivF])
